import Mathlib

/-!
Verification of the Clash-Royale deck-tracker API core against its
specification.  The Python source is embedded shallowly: pure functions
become Lean functions, the Redis cache and the relational store become
explicit state values, fallible calls become `Except`/`Option` parameters.
Machine-level behaviour (MD5, UTF-8, Python `str`/`repr`) is modelled
executably so claims can be settled on concrete inputs.
-/

namespace DeckTracker

/-! ## Python byte/string groundwork -/

/-- UTF-8 encoding of a single Unicode scalar value, as byte values. -/
def utf8EncodeCh (c : Char) : List Nat :=
  let n := c.toNat
  if n < 128 then [n]
  else if n < 2048 then [192 + n / 64, 128 + n % 64]
  else if n < 65536 then [224 + n / 4096, 128 + n / 64 % 64, 128 + n % 64]
  else [240 + n / 262144, 128 + n / 4096 % 64, 128 + n / 64 % 64, 128 + n % 64]

/-- UTF-8 bytes of a string (what `str.encode()` produces in Python). -/
def strBytes (s : String) : List Nat :=
  s.data.flatMap utf8EncodeCh

/-! ## MD5 (RFC 1321), executable over byte lists.

Needed because the Gateway's cache key is
`"api:{path}:" + md5(str(params)).hexdigest()`. -/

/-- 2^32, the word modulus of MD5. -/
def w32 : Nat := 4294967296

/-- 32-bit left rotation. -/
def rotl32 (x s : Nat) : Nat :=
  (x * 2 ^ s + x / 2 ^ (32 - s)) % w32

/-- 32-bit bitwise complement. -/
def not32 (x : Nat) : Nat := 4294967295 - x % w32

/-- The 64 MD5 sine-derived constants. -/
def md5K : List Nat :=
  [0xd76aa478, 0xe8c7b756, 0x242070db, 0xc1bdceee,
   0xf57c0faf, 0x4787c62a, 0xa8304613, 0xfd469501,
   0x698098d8, 0x8b44f7af, 0xffff5bb1, 0x895cd7be,
   0x6b901122, 0xfd987193, 0xa679438e, 0x49b40821,
   0xf61e2562, 0xc040b340, 0x265e5a51, 0xe9b6c7aa,
   0xd62f105d, 0x02441453, 0xd8a1e681, 0xe7d3fbc8,
   0x21e1cde6, 0xc33707d6, 0xf4d50d87, 0x455a14ed,
   0xa9e3e905, 0xfcefa3f8, 0x676f02d9, 0x8d2a4c8a,
   0xfffa3942, 0x8771f681, 0x6d9d6122, 0xfde5380c,
   0xa4beea44, 0x4bdecfa9, 0xf6bb4b60, 0xbebfbc70,
   0x289b7ec6, 0xeaa127fa, 0xd4ef3085, 0x04881d05,
   0xd9d4d039, 0xe6db99e5, 0x1fa27cf8, 0xc4ac5665,
   0xf4292244, 0x432aff97, 0xab9423a7, 0xfc93a039,
   0x655b59c3, 0x8f0ccc92, 0xffeff47d, 0x85845dd1,
   0x6fa87e4f, 0xfe2ce6e0, 0xa3014314, 0x4e0811a1,
   0xf7537e82, 0xbd3af235, 0x2ad7d2bb, 0xeb86d391]

/-- The 64 MD5 per-round shift amounts. -/
def md5S : List Nat :=
  [7, 12, 17, 22, 7, 12, 17, 22, 7, 12, 17, 22, 7, 12, 17, 22,
   5, 9, 14, 20, 5, 9, 14, 20, 5, 9, 14, 20, 5, 9, 14, 20,
   4, 11, 16, 23, 4, 11, 16, 23, 4, 11, 16, 23, 4, 11, 16, 23,
   6, 10, 15, 21, 6, 10, 15, 21, 6, 10, 15, 21, 6, 10, 15, 21]

/-- `len` little-endian bytes of `n`. -/
def toLEBytes (len n : Nat) : List Nat :=
  (List.range len).map fun i => n / 2 ^ (8 * i) % 256

/-- MD5 padding: append 0x80, zero bytes to 56 mod 64, then the 64-bit
little-endian bit length. -/
def md5Pad (msg : List Nat) : List Nat :=
  msg ++ 128 :: List.replicate ((119 - msg.length % 64) % 64) 0
      ++ toLEBytes 8 (8 * msg.length)

/-- Split a byte list into 64-byte blocks (structural recursion on a fuel
bound so that the definition reduces inside the kernel; `l.length` steps
always suffice since each step consumes a nonempty prefix). -/
def chunksAux : Nat → List Nat → List (List Nat)
  | _, [] => []
  | 0, _ => []
  | fuel + 1, l => l.take 64 :: chunksAux fuel (l.drop 64)

/-- Split a byte list into 64-byte blocks. -/
def chunks64 (l : List Nat) : List (List Nat) :=
  chunksAux l.length l

/-- Little-endian 32-bit word `g` of a 64-byte block. -/
def leWord (block : List Nat) (g : Nat) : Nat :=
  block.getD (4 * g) 0 + 256 * block.getD (4 * g + 1) 0
    + 65536 * block.getD (4 * g + 2) 0 + 16777216 * block.getD (4 * g + 3) 0

/-- MD5 message-word index for round `i`. -/
def md5G (i : Nat) : Nat :=
  if i < 16 then i
  else if i < 32 then (5 * i + 1) % 16
  else if i < 48 then (3 * i + 5) % 16
  else 7 * i % 16

/-- MD5 nonlinear function for round `i`. -/
def md5F (i b c d : Nat) : Nat :=
  if i < 16 then Nat.lor (Nat.land b c) (Nat.land (not32 b) d)
  else if i < 32 then Nat.lor (Nat.land d b) (Nat.land (not32 d) c)
  else if i < 48 then Nat.xor b (Nat.xor c d)
  else Nat.xor c (Nat.lor b (not32 d))

/-- One MD5 round on the state `(a, b, c, d)`. -/
def md5Step (block : List Nat) (st : Nat × Nat × Nat × Nat) (i : Nat) :
    Nat × Nat × Nat × Nat :=
  let (a, b, c, d) := st
  let f := (md5F i b c d + a + md5K.getD i 0 + leWord block (md5G i)) % w32
  (d, (b + rotl32 f (md5S.getD i 0)) % w32, b, c)

/-- Process one 64-byte block. -/
def md5Block (st : Nat × Nat × Nat × Nat) (block : List Nat) :
    Nat × Nat × Nat × Nat :=
  let (a, b, c, d) := (List.range 64).foldl (md5Step block) st
  ((st.1 + a) % w32, (st.2.1 + b) % w32, (st.2.2.1 + c) % w32, (st.2.2.2 + d) % w32)

/-- MD5 digest of a byte list, as 16 bytes. -/
def md5Digest (msg : List Nat) : List Nat :=
  let (a, b, c, d) :=
    (chunks64 (md5Pad msg)).foldl md5Block
      (0x67452301, 0xefcdab89, 0x98badcfe, 0x10325476)
  toLEBytes 4 a ++ toLEBytes 4 b ++ toLEBytes 4 c ++ toLEBytes 4 d

/-- Lowercase hexadecimal digit. -/
def hexDigit (n : Nat) : Char :=
  if n < 10 then Char.ofNat (48 + n) else Char.ofNat (87 + n)

/-- Two-character lowercase hex of a byte. -/
def byteToHex (b : Nat) : List Char :=
  [hexDigit (b / 16 % 16), hexDigit (b % 16)]

/-- `hashlib.md5(bytes).hexdigest()`. -/
def md5hex (msg : List Nat) : String :=
  ⟨(md5Digest msg).flatMap byteToHex⟩

/-! ## Python `repr`/`str` of query parameters -/

/-- The single-quote character. -/
def squote : Char := Char.ofNat 39

/-- The double-quote character. -/
def dquote : Char := Char.ofNat 34

/-- How Python `repr` escapes one character of a string quoted with `q`
(covers strings of printable characters plus tab/newline/CR and other
ASCII controls, which is the shape of query-parameter data here). -/
def pyEscapeChar (q c : Char) : List Char :=
  if c = '\\' then ['\\', '\\']
  else if c = q then ['\\', q]
  else if c = '\t' then ['\\', 't']
  else if c = '\n' then ['\\', 'n']
  else if c = '\r' then ['\\', 'r']
  else if c.toNat < 32 || c.toNat == 127 then '\\' :: 'x' :: byteToHex c.toNat
  else [c]

/-- Python `repr` of a `str`: single quotes unless the string contains a
single quote and no double quote. -/
def pyReprStr (s : String) : String :=
  let q := if s.data.contains squote && !s.data.contains dquote then dquote else squote
  ⟨q :: (s.data.flatMap (pyEscapeChar q) ++ [q])⟩

/-- A Python query-parameter value as the service builds them: a `str` or
an `int` (`params={"name": clan_name, "limit": 10}`). -/
inductive PyVal
  | str (v : String)
  | int (v : Int)
deriving DecidableEq

/-- Python `repr` of a parameter value. -/
def pyReprVal : PyVal → String
  | .str v => pyReprStr v
  | .int v => toString v

/-- Python `str(params)` where `params` is `None` or a `dict`; the list is
the dict's items in insertion order (keys distinct by dict construction). -/
def pyStrOfParams : Option (List (String × PyVal)) → String
  | none => "None"
  | some ps =>
    "\x7b" ++ String.intercalate ", "
      (ps.map fun kv => pyReprStr kv.1 ++ ": " ++ pyReprVal kv.2) ++ "\x7d"

/-- The Gateway's cache key, from `SupercellAPIService.get` line 48:
the Python f-string "api:" + path + ":" + md5-hexdigest of str(params). -/
def cache_key (path : String) (params : Option (List (String × PyVal))) : String :=
  "api:" ++ path ++ ":" ++ md5hex (strBytes (pyStrOfParams params))

/-! ## Rate limiter (utils/rate_limiting.py) -/

/-- Configuration constants from config.py. -/
def GENERAL_RATE_LIMIT : Nat := 100

/-- General rate-limit window, seconds. -/
def GENERAL_RATE_WINDOW : Nat := 3600

/-- State of one Redis rate-limit key: a counter plus the TTL recorded
when the key was created by `setex`; `incr` leaves the TTL untouched. -/
structure RLCell where
  count : Nat
  ttl : Nat
deriving DecidableEq

/-- `check_rate_limit` over the caller's key state: absent key → `setex`
to 1 with the window TTL and admit; counter below the limit → increment
and admit; otherwise deny without touching the counter. -/
def check_rate_limit (limit window : Nat) (st : Option RLCell) : Bool × Option RLCell :=
  match st with
  | none => (true, some ⟨1, window⟩)
  | some c =>
    if c.count < limit then (true, some ⟨c.count + 1, c.ttl⟩)
    else (false, some c)

/-- Key state after `n` requests in one window, starting from an absent
key (no expiry event in between). -/
def rlAfter (limit window : Nat) : Nat → Option RLCell
  | 0 => none
  | n + 1 => (check_rate_limit limit window (rlAfter limit window n)).2

/-- Whether request number `n` (1-indexed) of a window is admitted. -/
def rlAdmit (limit window n : Nat) : Bool :=
  (check_rate_limit limit window (rlAfter limit window (n - 1))).1

/-! ## Battle normalization (utils/helpers.py, services/player_service.py) -/

/-- One card of a deck (`cards[]` entries; only the name is read). -/
structure Card where
  name : String
deriving DecidableEq

/-- One side of a battle (`team[0]` / `opponent[0]`); `crowns` defaults to
0 as in `.get("crowns", 0)`. -/
structure TeamSide where
  crowns : Int := 0
  cards : List Card := []
deriving DecidableEq

/-- One raw battle record; `type` is `b.get("type")` (absent → `none`). -/
structure Battle where
  type : Option String := none
  team : List TeamSide := []
  opponent : List TeamSide := []
deriving DecidableEq

/-- Stable insertion of a string into an ascending list: equal elements
keep their existing position, so folding this is Python's stable `sorted`. -/
def insertAsc (a : String) : List String → List String
  | [] => [a]
  | b :: r => if a < b then a :: b :: r else b :: insertAsc a r

/-- Python `sorted` over strings (code-point lexicographic, stable). -/
def pySorted (l : List String) : List String :=
  l.foldl (fun acc a => insertAsc a acc) []

/-- `canon(cards)` from utils/helpers.py: the sorted tuple of card names,
the identity key of a deck. -/
def canon (cards : List Card) : List String :=
  pySorted (cards.map Card.name)

/-- `calculate_wins_losses` from utils/helpers.py: tallies wins/losses
over battles that have team data and a competitive type
(pathOfLegend/ladder/challenge/tournament); draws count in neither;
a missing opponent side reads as zero crowns. -/
def calculate_wins_losses (battles : List Battle) : Int × Int :=
  battles.foldl
    (fun acc b =>
      match b.team with
      | [] => acc
      | t :: _ =>
        if b.type = some "pathOfLegend" ∨ b.type = some "ladder" ∨
            b.type = some "challenge" ∨ b.type = some "tournament" then
          let oc : Int := match b.opponent with | [] => 0 | o :: _ => o.crowns
          if oc < t.crowns then (acc.1 + 1, acc.2)
          else if t.crowns < oc then (acc.1, acc.2 + 1)
          else acc
        else acc)
    (0, 0)

/-! ## Deck frequency ranking (`predict_player_decks`) -/

/-- A Python-level failure: an `HTTPException(status, detail)` or an
uncaught `ZeroDivisionError`. -/
inductive PyError
  | http (status : Nat) (detail : String)
  | zeroDivision
deriving DecidableEq

/-- Division as Python evaluates it: raises on a zero denominator. -/
def pyDiv (a b : ℚ) : Except PyError ℚ :=
  if b = 0 then .error .zeroDivision else .ok (a / b)

/-- Round-half-to-even on an exact rational, Python's `round` policy
(float representation error elided). -/
def roundHalfEven (q : ℚ) : ℤ :=
  if q - ⌊q⌋ < 1 / 2 then ⌊q⌋
  else if 1 / 2 < q - ⌊q⌋ then ⌊q⌋ + 1
  else if Even ⌊q⌋ then ⌊q⌋ else ⌊q⌋ + 1

/-- Python `round(q, 2)`. -/
def round2 (q : ℚ) : ℚ := (roundHalfEven (100 * q) : ℚ) / 100

/-- The game-mode filter of `predict_player_decks`: "ladder" keeps type
"trail", "ranked" keeps "pathOfLegend", anything else keeps all. -/
def filterMode (game_mode : String) (battles : List Battle) : List Battle :=
  if game_mode = "ladder" then battles.filter (fun b => b.type == some "trail")
  else if game_mode = "ranked" then battles.filter (fun b => b.type == some "pathOfLegend")
  else battles

/-- One step of the deck-count dict: increment an existing key in place or
append a new key with count 1 (Python dict insertion order). -/
def bumpDeck : List (List String × Nat) → List String → List (List String × Nat)
  | [], d => [(d, 1)]
  | (k, n) :: r, d =>
    if k = d then (k, n + 1) :: r else (k, n) :: bumpDeck r d

/-- The deck-count loop of `predict_player_decks`: battles without team
data are skipped; the key is `canon` of the own side's cards. -/
def deckCounts (battles : List Battle) : List (List String × Nat) :=
  battles.foldl
    (fun acc b =>
      match b.team with
      | [] => acc
      | t :: _ => bumpDeck acc (canon t.cards))
    []

/-- Stable descending insertion by count: a new entry goes after every
existing entry of greater-or-equal count, so folding this is Python's
stable `sorted(..., key=count, reverse=True)`. -/
def insertByCount (a : List String × Nat) : List (List String × Nat) → List (List String × Nat)
  | [] => [a]
  | b :: r => if b.2 < a.2 then a :: b :: r else b :: insertByCount a r

/-- Python's stable sort of deck counts, descending by count. -/
def sortByCountDesc (l : List (List String × Nat)) : List (List String × Nat) :=
  l.foldl (fun acc a => insertByCount a acc) []

/-- One exported deck entry: the canonical deck and its confidence. -/
structure DeckEntry where
  deck : List String
  confidence : ℚ
deriving DecidableEq

/-- Result shape of `predict_player_decks`. -/
structure PredictResult where
  player_tag : String
  top3 : List DeckEntry
  cached : Bool
deriving DecidableEq

/-- The per-entry confidence computation `round(n/total, 2)` over the
top-3 list, with Python division (fails on a zero denominator). -/
def mkDeckEntries (total : ℚ) : List (List String × Nat) → Except PyError (List DeckEntry)
  | [] => .ok []
  | kn :: r => do
    let c ← pyDiv (kn.2 : ℚ) total
    let rest ← mkDeckEntries total r
    pure (⟨kn.1, round2 c⟩ :: rest)

/-- `predict_player_decks` after the database-cache check and battle-log
fetch: mode validation, mode filtering, deck counting, and the top-3
ranking with confidences; `total = sum(counts.values()) or 1`. -/
def predict_player_decks (player_tag game_mode : String) (battles : List Battle) :
    Except PyError PredictResult :=
  if game_mode ∉ ["ladder", "ranked", "all"] then
    .error (.http 400 "Invalid game mode. Must be one of: ladder, ranked, all")
  else
    let filtered := filterMode game_mode battles
    if filtered = [] then
      .error (.http 404 "No battles found for this player. Try another mode.")
    else
      let counts := deckCounts filtered
      if counts = [] then
        .error (.http 404 "No valid deck data found in battles for this player.")
      else
        let s := (counts.map Prod.snd).sum
        let total : ℚ := if s = 0 then 1 else (s : ℚ)
        match mkDeckEntries total ((sortByCountDesc counts).take 3) with
        | .error e => .error e
        | .ok decks => .ok ⟨player_tag, decks, false⟩

/-! ## Upstream Gateway (`SupercellAPIService.get`) -/

/-- API response cache TTL, seconds (config.py). -/
def API_CACHE_TTL : Nat := 300

/-- One upstream HTTP attempt as the Gateway observes it. -/
inductive UpResp
  | http (status : Nat) (body : String)
  | timeout
  | connError (msg : String)
deriving DecidableEq

deriving instance DecidableEq for Except

/-- Everything observable about one `get` call: the local result, the
cache afterwards (key, payload, TTL), upstream requests issued, and
seconds spent in `asyncio.sleep` backoff. -/
structure GetOutcome where
  result : Except PyError String
  cache : List (String × String × Nat)
  upstreamCalls : Nat
  sleptSeconds : Nat
deriving DecidableEq

/-- Python `str.lower()`. -/
def pyLower (s : String) : String := ⟨s.data.map Char.toLower⟩

/-- Python `needle in hay` on strings: substring containment. -/
def strContains (hay needle : String) : Bool :=
  hay.data.tails.any fun t => needle.data.isPrefixOf t

/-- The status handling of `SupercellAPIService.get` on the effective
response: 404 with a path-derived hint, 403, any other error status
carried through with its body, otherwise success. -/
def classifyResponse (path : String) (status : Nat) (body : String) :
    Except PyError String :=
  if status = 404 then
    if strContains (pyLower path) "clan" then
      .error (.http 404 "Clan not found. Please check that your clan tag is correct (e.g., #ABC123).")
    else if strContains (pyLower path) "player" then
      .error (.http 404 "Player not found. Please check that the player tag is correct.")
    else
      .error (.http 404 "Resource not found. Please verify the information is correct.")
  else if status = 403 then
    .error (.http 403 "API access denied. Please check your API token.")
  else if 400 ≤ status then .error (.http status body)
  else .ok body

/-- Finish a `get` on the effective response: classify the status, and on
success write exactly one cache entry with the configured TTL. -/
def finishGet (cache : List (String × String × Nat)) (key path : String)
    (calls slept : Nat) (r : UpResp) : GetOutcome :=
  match r with
  | .timeout => ⟨.error (.http 504 "Request to Supercell API timed out"), cache, calls, slept⟩
  | .connError m =>
    ⟨.error (.http 503 ("Failed to connect to Supercell API: " ++ m)), cache, calls, slept⟩
  | .http status body =>
    match classifyResponse path status body with
    | .error e => ⟨.error e, cache, calls, slept⟩
    | .ok data => ⟨.ok data, cache ++ [(key, data, API_CACHE_TTL)], calls, slept⟩

/-- `SupercellAPIService.get`: cache lookup first; on a miss, one upstream
attempt (`up1`); on a 429, sleep one second and retry exactly once
(`up2`); the effective response then goes through the common status
handling. -/
def superGet (cache : List (String × String × Nat)) (path : String)
    (params : Option (List (String × PyVal))) (up1 up2 : UpResp) : GetOutcome :=
  let key := cache_key path params
  match cache.find? (fun e => e.1 == key) with
  | some e => ⟨.ok e.2.1, cache, 0, 0⟩
  | none =>
    match up1 with
    | .http s1 b1 =>
      if s1 = 429 then finishGet cache key path 2 1 up2
      else finishGet cache key path 1 0 (.http s1 b1)
    | .timeout => finishGet cache key path 1 0 .timeout
    | .connError m => finishGet cache key path 1 0 (.connError m)

/-! ## Snapshot store (models/clan.py, `create_clan_snapshot`) -/

/-- One `ClanMemberSnapshot` row; dates are UTC day numbers and the
`id`/`created_at` bookkeeping columns are elided. -/
structure Snap where
  clan_tag : String
  player_tag : String
  player_name : String
  donations_given : Int
  donations_received : Int
  war_attacks : Int
  total_war_attacks : Int
  medals : Int
  battles : Int
  wins : Int
  losses : Int
  snapshot_date : Int
deriving DecidableEq

/-- One roster member as read from the members endpoint; donation fields
default to 0 as in `member.get(..., 0)`. -/
structure Member where
  tag : String
  name : String
  donations : Int := 0
  donationsReceived : Int := 0
deriving DecidableEq

/-- One river-race participant (`p.get("tag"/"fame"/"decksUsed")`). -/
structure Participant where
  tag : Option String := none
  fame : Int := 0
  decksUsed : Int := 0
deriving DecidableEq

/-- One race standing: the clan tag under `standing["clan"]["tag"]` and
its participant list. -/
structure Standing where
  clanTag : Option String := none
  participants : List Participant := []
deriving DecidableEq

/-- One river-race log entry; `standings = none` models a race dict
without a "standings" key. -/
structure Race where
  standings : Option (List Standing) := none
deriving DecidableEq

/-- The war-stat accumulation of `create_clan_snapshot` for one member:
over the five most recent races, on each standing of this clan, sum the
member's fame and decksUsed and add 4 to the attack capacity. -/
def warStats (clan_tag member_tag : String) (river : List Race) : Int × Int × Int :=
  (river.take 5).foldl
    (fun acc race =>
      match race.standings with
      | none => acc
      | some standings =>
        standings.foldl
          (fun acc standing =>
            if standing.clanTag = some clan_tag then
              standing.participants.foldl
                (fun acc p =>
                  if p.tag = some member_tag then
                    (acc.1 + p.fame, acc.2.1 + p.decksUsed, acc.2.2 + 4)
                  else acc)
                acc
            else acc)
          acc)
    (0, 0, 0)

/-- Environment of one `create_clan_snapshot` run: the outcomes of its
external calls and whether the final commit succeeds. -/
structure SnapEnv where
  membersRes : Except String (List Member)
  riverRes : Except String (List Race)
  battleLogRes : String → Except String (List Battle)
  commitOk : Bool

/-- The snapshot row staged for one member: war stats from the river-race
log (a failed fetch reads as no races), battle stats from the member's
battle log (a failed fetch reads as zeros). -/
def memberSnap (clan_tag : String) (today : Int) (env : SnapEnv) (m : Member) : Snap :=
  let river := match env.riverRes with | .ok r => r | .error _ => []
  let ws := warStats clan_tag m.tag river
  let bs : Int × Int × Int :=
    match env.battleLogRes m.tag with
    | .ok battles =>
      let wl := calculate_wins_losses battles
      ((battles.length : Int), wl.1, wl.2)
    | .error _ => (0, 0, 0)
  ⟨clan_tag, m.tag, m.name, m.donations, m.donationsReceived,
    ws.2.1, ws.2.2, ws.1, bs.1, bs.2.1, bs.2.2, today⟩

/-- `create_clan_snapshot` over the committed store: return `false` if any
row for (clan, today) exists; otherwise stage one row per member and
commit them as a batch — any failure (roster fetch, commit) rolls the
batch back, leaves the store untouched and returns `false` rather than
raising. -/
def create_clan_snapshot (clan_tag : String) (today : Int) (env : SnapEnv)
    (store : List Snap) : Bool × List Snap :=
  if store.filter (fun s => s.clan_tag == clan_tag && s.snapshot_date == today) ≠ [] then
    (false, store)
  else
    match env.membersRes with
    | .error _ => (false, store)
    | .ok members =>
      if env.commitOk then
        (true, store ++ members.map (memberSnap clan_tag today env))
      else (false, store)

/-! ## Delta engine (`get_historical_stats`) -/

/-- One row of the historical report; the constant `last_seen: None`
field is elided. -/
structure DeltaRow where
  name : String
  tag : String
  donations : Int
  donations_received : Int
  war_attacks : Int
  total_war_attacks : Int
  medals : Int
  battles : Int
  wins : Int
  losses : Int
deriving DecidableEq

/-- The period table of `get_historical_stats`:
`{"week": 7, "2weeks": 14, "month": 30, "all": 9999}.get(p, 7)`. -/
def days_ago_of_period (time_period : String) : Int :=
  if time_period = "week" then 7
  else if time_period = "2weeks" then 14
  else if time_period = "month" then 30
  else if time_period = "all" then 9999
  else 7

/-- The old-snapshot dict build: iterate in query order, keeping only the
first snapshot seen for each player tag. -/
def build_old_lookup (old : List Snap) : List (String × Snap) :=
  old.foldl
    (fun acc s =>
      if (acc.lookup s.player_tag).isSome then acc
      else acc ++ [(s.player_tag, s)])
    []

/-- One report row: deltas against the baseline when one exists, today's
values verbatim otherwise; `total_war_attacks` is always today's value. -/
def deltaRow (latest : Snap) (old : Option Snap) : DeltaRow :=
  match old with
  | some o =>
    ⟨latest.player_name, latest.player_tag,
      latest.donations_given - o.donations_given,
      latest.donations_received - o.donations_received,
      latest.war_attacks - o.war_attacks,
      latest.total_war_attacks,
      latest.medals - o.medals,
      latest.battles - o.battles,
      latest.wins - o.wins,
      latest.losses - o.losses⟩
  | none =>
    ⟨latest.player_name, latest.player_tag,
      latest.donations_given, latest.donations_received,
      latest.war_attacks, latest.total_war_attacks, latest.medals,
      latest.battles, latest.wins, latest.losses⟩

/-- `get_historical_stats`: resolve the period to a day window, require a
today-dated snapshot set (else report no data), and pair each of today's
rows with the first in-window snapshot of the same member returned by the
store. -/
def get_historical_stats (clan_tag time_period : String) (today : Int)
    (store : List Snap) : Option (List DeltaRow) :=
  let start_date := today - days_ago_of_period time_period
  let latest := store.filter
    (fun s => s.clan_tag == clan_tag && s.snapshot_date == today)
  if latest = [] then none
  else
    let old := store.filter
      (fun s => s.clan_tag == clan_tag && decide (start_date ≤ s.snapshot_date)
        && decide (s.snapshot_date < today))
    let lk := build_old_lookup old
    some (latest.map (fun l => deltaRow l (lk.lookup l.player_tag)))

/-! ## Player resolver (`resolve_player_by_clan_tag`) -/

/-- Result shape of the resolver. -/
structure ResolveResult where
  player_tag : String
  name : String
  confidence : Int
deriving DecidableEq

/-- `rapidfuzz.process.extractOne`: scan the choices keeping the first
best-scoring one; `none` only on an empty choice list. The scorer is a
parameter (the service passes `fuzz.WRatio`, a 0-100 similarity). -/
def extractOne (scorer : String → String → ℚ) (query : String)
    (names : List String) : Option (String × ℚ) :=
  names.foldl
    (fun best n =>
      match best with
      | none => some (n, scorer query n)
      | some (bn, bs) =>
        if bs < scorer query n then some (n, scorer query n) else some (bn, bs))
    none

/-- Python `int()` on a rational: truncation toward zero. -/
def pyIntOfRat (q : ℚ) : Int :=
  if 0 ≤ q then ⌊q⌋ else -⌊-q⌋

/-- `resolve_player_by_clan_tag` after the roster fetch: empty roster →
404; best fuzzy score below 70 → 404; otherwise the first member bearing
the matched name, with the truncated integer score as confidence
(404 detail texts abbreviated). -/
def resolve_player_by_clan_tag (scorer : String → String → ℚ)
    (player_name : String) (members : List Member) : Except PyError ResolveResult :=
  if members = [] then .error (.http 404 "No members found for that clan tag")
  else
    match extractOne scorer player_name (members.map Member.name) with
    | none => .error (.http 404 "No close match found")
    | some (mn, sc) =>
      if sc < 70 then .error (.http 404 "No close match found")
      else
        match members.find? (fun m => m.name == mn) with
        | none => .error (.http 500 "StopIteration")
        | some chosen => .ok ⟨chosen.tag, chosen.name, pyIntOfRat sc⟩

/-! ## Tag encoding (utils/helpers.py `enc_tag`) and its urllib model.

`enc_tag` is three lines over `urllib.parse.unquote` / `urllib.parse.quote`,
so those two stdlib functions are modelled executably: `quote` percent-encodes
the UTF-8 bytes of the string (uppercase hex, safe set = ASCII alphanumerics
and `_.-~`, here with `safe=""`), `unquote` turns ASCII runs back into bytes
(`%HH` escapes decoded, malformed escapes kept verbatim) and UTF-8-decodes
them with replacement, passing non-ASCII characters through. -/

/-- The Unicode replacement character U+FFFD. -/
def repCh : Char := Char.ofNat 0xFFFD

/-- Decode one UTF-8 sequence starting at lead byte `b` with the bytes of
`rest` following: the decoded character and how many bytes of `rest` it
consumed. Ill-formed input yields U+FFFD consuming only the maximal valid
subpart, the policy of Python's `errors="replace"`. -/
def utf8Dec1 (b : Nat) (rest : List Nat) : Char × Nat :=
  if b < 128 then (Char.ofNat b, 0)
  else if 194 ≤ b ∧ b ≤ 223 then
    match rest with
    | c1 :: _ =>
      if 128 ≤ c1 ∧ c1 ≤ 191 then (Char.ofNat ((b - 192) * 64 + (c1 - 128)), 1)
      else (repCh, 0)
    | [] => (repCh, 0)
  else if 224 ≤ b ∧ b ≤ 239 then
    let lo1 := if b = 224 then 160 else 128
    let hi1 := if b = 237 then 159 else 191
    match rest with
    | c1 :: rest1 =>
      if lo1 ≤ c1 ∧ c1 ≤ hi1 then
        match rest1 with
        | c2 :: _ =>
          if 128 ≤ c2 ∧ c2 ≤ 191 then
            (Char.ofNat ((b - 224) * 4096 + (c1 - 128) * 64 + (c2 - 128)), 2)
          else (repCh, 1)
        | [] => (repCh, 1)
      else (repCh, 0)
    | [] => (repCh, 0)
  else if 240 ≤ b ∧ b ≤ 244 then
    let lo1 := if b = 240 then 144 else 128
    let hi1 := if b = 244 then 143 else 191
    match rest with
    | c1 :: rest1 =>
      if lo1 ≤ c1 ∧ c1 ≤ hi1 then
        match rest1 with
        | c2 :: rest2 =>
          if 128 ≤ c2 ∧ c2 ≤ 191 then
            match rest2 with
            | c3 :: _ =>
              if 128 ≤ c3 ∧ c3 ≤ 191 then
                (Char.ofNat ((b - 240) * 262144 + (c1 - 128) * 4096
                  + (c2 - 128) * 64 + (c3 - 128)), 3)
              else (repCh, 2)
            | [] => (repCh, 2)
          else (repCh, 1)
        | [] => (repCh, 1)
      else (repCh, 0)
    | [] => (repCh, 0)
  else (repCh, 0)

/-- UTF-8 decoding loop with replacement; the fuel bound (one unit per
lead byte, each step consuming at least one byte) keeps the recursion
structural so it reduces in the kernel. -/
def utf8DecAux : Nat → List Nat → List Char
  | _, [] => []
  | 0, _ => []
  | fuel + 1, b :: rest =>
    let (ch, k) := utf8Dec1 b rest
    ch :: utf8DecAux fuel (rest.drop k)

/-- `bytes.decode("utf-8", errors="replace")`. -/
def utf8DecodeReplace (l : List Nat) : List Char :=
  utf8DecAux l.length l

/-- Bytes never percent-encoded by `urllib.parse.quote`: ASCII letters,
digits, and `_.-~` (the call site passes `safe=""`, adding nothing). -/
def quoteSafe (b : Nat) : Bool :=
  decide ((48 ≤ b ∧ b ≤ 57) ∨ (65 ≤ b ∧ b ≤ 90) ∨ (97 ≤ b ∧ b ≤ 122)
    ∨ b = 95 ∨ b = 46 ∨ b = 45 ∨ b = 126)

/-- Uppercase hexadecimal digit, as `quote` emits them. -/
def hexDigitU (n : Nat) : Char :=
  if n < 10 then Char.ofNat (48 + n) else Char.ofNat (55 + n)

/-- One byte of `quote` output: the character itself when safe, `%HH`
otherwise. -/
def quoteByte (b : Nat) : List Char :=
  if quoteSafe b then [Char.ofNat b]
  else ['%', hexDigitU (b / 16 % 16), hexDigitU (b % 16)]

/-- `urllib.parse.quote(s, safe="")`. -/
def pyQuote (s : String) : String :=
  ⟨(strBytes s).flatMap quoteByte⟩

/-- Value of a hexadecimal digit character, either case (the `%HH` parser
of `unquote`). -/
def hexVal (c : Char) : Option Nat :=
  if 48 ≤ c.toNat ∧ c.toNat ≤ 57 then some (c.toNat - 48)
  else if 65 ≤ c.toNat ∧ c.toNat ≤ 70 then some (c.toNat - 55)
  else if 97 ≤ c.toNat ∧ c.toNat ≤ 102 then some (c.toNat - 87)
  else none

/-- Parse one `%HH` escape body: the byte value and the characters after
it, or `none` when the next two characters are not hex digits. -/
def hexEscape : List Char → Option (Nat × List Char)
  | c1 :: c2 :: rest2 =>
    match hexVal c1, hexVal c2 with
    | some h1, some h2 => some (16 * h1 + h2, rest2)
    | _, _ => none
  | _ => none

/-- The `unquote` walk: ASCII characters accumulate into a byte buffer
(`%HH` escapes as their byte, malformed `%` as a literal 0x25, other
characters as their code), flushed through the replacing UTF-8 decoder at
a non-ASCII character or at the end; fuel is one unit per character. -/
def unquoteAux : Nat → List Nat → List Char → List Char
  | _, buf, [] => utf8DecodeReplace buf
  | 0, buf, rest => utf8DecodeReplace buf ++ rest
  | fuel + 1, buf, c :: rest =>
    if c.toNat < 128 then
      if c = '%' then
        match hexEscape rest with
        | some (v, rest2) => unquoteAux fuel (buf ++ [v]) rest2
        | none => unquoteAux fuel (buf ++ [37]) rest
      else unquoteAux fuel (buf ++ [c.toNat]) rest
    else utf8DecodeReplace buf ++ (c :: unquoteAux fuel [] rest)

/-- `urllib.parse.unquote(s)` with the default utf-8/replace policy. -/
def pyUnquote (s : String) : String :=
  ⟨unquoteAux s.data.length [] s.data⟩

/-- The leading-hash step of `enc_tag`:
`if not tag.startswith("#"): tag = "#" + tag`. -/
def ensureHash (t : String) : String :=
  match t.data with
  | '#' :: _ => t
  | _ => "#" ++ t

/-- `enc_tag` from utils/helpers.py: decode any incoming escapes, ensure
a leading `#`, then percent-encode once with nothing safe. -/
def enc_tag (tag : String) : String :=
  pyQuote (ensureHash (pyUnquote tag))

/-! # Theorems -/

/-- C1: the Gateway's cache key hashes Python `str(params)`, which depends
on dict insertion order — the two semantically-equal parameter mappings
(name="x", limit=10) in either key order produce different cache keys, so
the second call cannot be a cache hit; the claimed order-independence
fails. Both keys are evaluated in full (MD5 included) to witness this. -/
theorem cache_key_depends_on_param_order :
    cache_key "/clans" (some [("name", PyVal.str "x"), ("limit", PyVal.int 10)])
        = "api:/clans:c2e5128810bcc1318a93e2e34d68b3c8" ∧
    cache_key "/clans" (some [("limit", PyVal.int 10), ("name", PyVal.str "x")])
        = "api:/clans:058e70a2de42e7bc15fff681f91826fc" ∧
    cache_key "/clans" (some [("name", PyVal.str "x"), ("limit", PyVal.int 10)])
        ≠ cache_key "/clans" (some [("limit", PyVal.int 10), ("name", PyVal.str "x")]) :=
  ⟨by decide, by decide, by decide⟩

/-- Closed form of the rate-limit key state after `n` requests of one
window: the counter climbs to the limit and stays there, with the TTL
fixed at creation. -/
theorem rlAfter_closed (L W : Nat) (hL : 1 ≤ L) (n : Nat) :
    rlAfter L W n = if n = 0 then none else some ⟨min n L, W⟩ := by
  induction n with
  | zero => rfl
  | succ n ih =>
    rw [rlAfter, ih]
    rcases Nat.eq_zero_or_pos n with h0 | hpos
    · subst h0
      simp [check_rate_limit]
      omega
    · have hn : n ≠ 0 := Nat.pos_iff_ne_zero.mp hpos
      simp only [if_neg hn, check_rate_limit]
      split
      · simp only [if_neg (Nat.succ_ne_zero n), Option.some.injEq, RLCell.mk.injEq, and_true]
        omega
      · simp only [if_neg (Nat.succ_ne_zero n), Option.some.injEq, RLCell.mk.injEq, and_true]
        omega

/-- Request `n` (1-indexed) of a window is admitted exactly when `n` is
within the limit. -/
theorem rlAdmit_iff (L W n : Nat) (hL : 1 ≤ L) (hn : 1 ≤ n) :
    rlAdmit L W n = true ↔ n ≤ L := by
  rw [rlAdmit, rlAfter_closed L W hL]
  rcases eq_or_lt_of_le hn with h1 | h2
  · simp [← h1, check_rate_limit, hL]
  · have hne : n - 1 ≠ 0 := by omega
    simp only [if_neg hne]
    rcases Nat.lt_or_ge (n - 1) L with hcase | hcase
    · rw [Nat.min_eq_left (Nat.le_of_lt hcase)]
      simp [check_rate_limit, hcase]
      omega
    · rw [Nat.min_eq_right hcase]
      simp [check_rate_limit]
      omega

/-- C5: the fixed-window limiter admits the first request of a window,
creating the counter at 1 with TTL = W; it increments and admits while
the counter is below L; at or above L it denies without incrementing;
request n of a window is admitted iff n ≤ L, so with the configured
limit of 100 the 100th request is admitted and the 101st denied. -/
theorem rate_limiter_window (L W : Nat) (hL : 1 ≤ L) :
    check_rate_limit L W none = (true, some ⟨1, W⟩) ∧
    (∀ c : RLCell, c.count < L →
      check_rate_limit L W (some c) = (true, some ⟨c.count + 1, c.ttl⟩)) ∧
    (∀ c : RLCell, L ≤ c.count →
      check_rate_limit L W (some c) = (false, some c)) ∧
    (∀ n, 1 ≤ n → (rlAdmit L W n = true ↔ n ≤ L)) ∧
    rlAdmit GENERAL_RATE_LIMIT W 100 = true ∧
    rlAdmit GENERAL_RATE_LIMIT W 101 = false := by
  refine ⟨rfl, ?_, ?_, fun n hn => rlAdmit_iff L W n hL hn, ?_, ?_⟩
  · intro c hc
    simp [check_rate_limit, hc]
  · intro c hc
    simp [check_rate_limit, Nat.not_lt.mpr hc]
  · exact (rlAdmit_iff GENERAL_RATE_LIMIT W 100 (by decide) (by decide)).mpr (by decide)
  · rw [Bool.eq_false_iff]
    intro h
    exact absurd ((rlAdmit_iff GENERAL_RATE_LIMIT W 101 (by decide) (by decide)).mp h)
      (by decide)

/-- Witness for C5 at the configured policy (100 requests / 3600 s). -/
theorem rate_limiter_window_witness :
    (1 ≤ 100) ∧ (rlAdmit 100 3600 100 = true ↔ 100 ≤ 100) :=
  ⟨by decide, (rate_limiter_window 100 3600 (by decide)).2.2.2.1 100 (by decide)⟩

/-- C10: an unrecognized period string silently falls back to the 7-day
window: for every period outside week/2weeks/month/all,
`get_historical_stats` returns exactly the result of period "week" on the
same store state. -/
theorem historical_stats_unknown_period (p : String)
    (hp : p ∉ ["week", "2weeks", "month", "all"]) (clan : String) (today : Int)
    (store : List Snap) :
    get_historical_stats clan p today store
      = get_historical_stats clan "week" today store := by
  simp only [List.mem_cons, List.mem_singleton, not_or] at hp
  obtain ⟨h1, h2, h3, h4⟩ := hp
  have h7 : days_ago_of_period p = days_ago_of_period "week" := by
    simp [days_ago_of_period, h1, h2, h3, h4]
  unfold get_historical_stats
  rw [h7]

/-- Witness for C10 at the concrete period "year". -/
theorem historical_stats_unknown_period_witness :
    ("year" ∉ ["week", "2weeks", "month", "all"]) ∧
    get_historical_stats "#C" "year" 10 [] = get_historical_stats "#C" "week" 10 [] :=
  ⟨by decide, historical_stats_unknown_period "year" (by decide) "#C" 10 []⟩

/-- When the denominator is nonzero, the confidence loop succeeds and
maps each entry to its rounded quotient. -/
theorem mkDeckEntries_ok (total : ℚ) (htot : total ≠ 0)
    (l : List (List String × Nat)) :
    mkDeckEntries total l
      = .ok (l.map fun kn => ⟨kn.1, round2 ((kn.2 : ℚ) / total)⟩) := by
  induction l with
  | nil => rfl
  | cons kn r ih =>
    simp [mkDeckEntries, pyDiv, htot, ih, Bind.bind, Except.bind, Pure.pure, Except.pure]

/-- Closed form of `predict_player_decks`: the three guard errors in
order, else the ranked top-3 with rounded confidences over the
zero-guarded denominator. -/
theorem predict_player_decks_eq (tag mode : String) (battles : List Battle) :
    predict_player_decks tag mode battles =
      if mode ∉ ["ladder", "ranked", "all"] then
        .error (.http 400 "Invalid game mode. Must be one of: ladder, ranked, all")
      else if filterMode mode battles = [] then
        .error (.http 404 "No battles found for this player. Try another mode.")
      else if deckCounts (filterMode mode battles) = [] then
        .error (.http 404 "No valid deck data found in battles for this player.")
      else
        .ok ⟨tag,
          ((sortByCountDesc (deckCounts (filterMode mode battles))).take 3).map
            (fun kn => ⟨kn.1, round2 ((kn.2 : ℚ) /
              (if ((deckCounts (filterMode mode battles)).map Prod.snd).sum = 0 then (1 : ℚ)
               else (((deckCounts (filterMode mode battles)).map Prod.snd).sum : ℚ)))⟩),
          false⟩ := by
  simp only [predict_player_decks]
  split_ifs with hmode hfil hcnt hs
  all_goals try rfl
  all_goals rw [mkDeckEntries_ok]
  · exact one_ne_zero
  · exact Nat.cast_ne_zero.mpr hs

/-- C4 counterexample: on a battle list whose only battle lacks team data
the deck-counts map is empty, and `predict_player_decks` answers HTTP 404
— not an empty top-3 list as the claim states. -/
theorem predict_empty_counts_raises :
    deckCounts (filterMode "all" [⟨none, [], []⟩]) = [] ∧
    predict_player_decks "#P" "all" [⟨none, [], []⟩]
      = .error (.http 404 "No valid deck data found in battles for this player.") :=
  ⟨rfl, by decide⟩

/-- C4 (amended): the deck-frequency ranker never raises a division
error: every confidence is round(count / denominator, 2) where the
denominator is the sum of all counts with zero replaced by 1; and when
the deck-counts map is empty the operation raises an HTTP error (404)
before any division, rather than emitting an empty top-3 list. -/
theorem predict_no_zero_division (tag mode : String) (battles : List Battle) :
    predict_player_decks tag mode battles ≠ .error .zeroDivision ∧
    (∀ res, predict_player_decks tag mode battles = .ok res →
      res.top3 = ((sortByCountDesc (deckCounts (filterMode mode battles))).take 3).map
        (fun kn => ⟨kn.1, round2 ((kn.2 : ℚ) /
          (if ((deckCounts (filterMode mode battles)).map Prod.snd).sum = 0 then (1 : ℚ)
           else (((deckCounts (filterMode mode battles)).map Prod.snd).sum : ℚ)))⟩)) ∧
    (deckCounts (filterMode mode battles) = [] →
      ∃ st d, predict_player_decks tag mode battles = .error (.http st d)) := by
  rw [predict_player_decks_eq]
  refine ⟨?_, ?_, ?_⟩
  · split_ifs <;> simp
  · intro res hres
    split_ifs at hres with h1 h2 h3 h4 <;> cases hres <;> simp [h4]
  · intro hcnt
    split_ifs
    all_goals exact ⟨_, _, rfl⟩

/-- Witness for C4's amended theorem on a one-battle log. -/
theorem predict_no_zero_division_witness :
    predict_player_decks "#P" "all" [⟨some "x", [⟨1, [⟨"K"⟩]⟩], []⟩]
      ≠ .error .zeroDivision ∧
    predict_player_decks "#P" "all" [⟨some "x", [⟨1, [⟨"K"⟩]⟩], []⟩]
      = .ok ⟨"#P", [⟨["K"], 1⟩], false⟩ := by
  refine ⟨(predict_no_zero_division "#P" "all" _).1, ?_⟩
  have h1 : round2 (1 : ℚ) = 1 := by norm_num [round2, roundHalfEven]
  simp [predict_player_decks, filterMode, deckCounts, bumpDeck, canon, pySorted,
    insertAsc, sortByCountDesc, insertByCount, mkDeckEntries, pyDiv, h1,
    Bind.bind, Except.bind, Pure.pure, Except.pure]

/-- The upstream-call count of a finished request is its parameter. -/
theorem finishGet_calls (cache : List (String × String × Nat)) (key path : String)
    (n s : Nat) (r : UpResp) : (finishGet cache key path n s r).upstreamCalls = n := by
  cases r with
  | timeout => rfl
  | connError m => rfl
  | http st b =>
    rcases h : classifyResponse path st b with e | d <;> simp [finishGet, h]

/-- The backoff-sleep count of a finished request is its parameter. -/
theorem finishGet_slept (cache : List (String × String × Nat)) (key path : String)
    (n s : Nat) (r : UpResp) : (finishGet cache key path n s r).sleptSeconds = s := by
  cases r with
  | timeout => rfl
  | connError m => rfl
  | http st b =>
    rcases h : classifyResponse path st b with e | d <;> simp [finishGet, h]

/-- No execution path of the Gateway issues more than two upstream
calls. -/
theorem superGet_calls_le (c : List (String × String × Nat)) (p : String)
    (par : Option (List (String × PyVal))) (u1 u2 : UpResp) :
    (superGet c p par u1 u2).upstreamCalls ≤ 2 := by
  simp only [superGet]
  split
  · exact Nat.zero_le _
  · split
    · split
      · rw [finishGet_calls]
      · rw [finishGet_calls]; omega
    · rw [finishGet_calls]; omega
    · rw [finishGet_calls]; omega

/-- C7: on a cache miss whose first upstream attempt returns 429 the
Gateway sleeps exactly one second and issues exactly two upstream calls;
if the retry is another 429 the call fails carrying status 429 and writes
nothing to the cache; and no input whatsoever causes more than two
upstream calls. -/
theorem gateway_retry_once (cache : List (String × String × Nat)) (path : String)
    (params : Option (List (String × PyVal))) (b1 : String) (up2 : UpResp)
    (hmiss : cache.find? (fun e => e.1 == cache_key path params) = none) :
    (superGet cache path params (.http 429 b1) up2).upstreamCalls = 2 ∧
    (superGet cache path params (.http 429 b1) up2).sleptSeconds = 1 ∧
    (∀ b2, up2 = .http 429 b2 →
      (superGet cache path params (.http 429 b1) up2).result = .error (.http 429 b2) ∧
      (superGet cache path params (.http 429 b1) up2).cache = cache) ∧
    (∀ (c : List (String × String × Nat)) (p : String)
        (par : Option (List (String × PyVal))) (u1 u2 : UpResp),
      (superGet c p par u1 u2).upstreamCalls ≤ 2) := by
  have hs : superGet cache path params (.http 429 b1) up2
      = finishGet cache (cache_key path params) path 2 1 up2 := by
    simp [superGet, hmiss]
  refine ⟨by rw [hs]; exact finishGet_calls _ _ _ _ _ _,
    by rw [hs]; exact finishGet_slept _ _ _ _ _ _, ?_, ?_⟩
  · intro b2 h2
    subst h2
    rw [hs]
    constructor <;> simp [finishGet, classifyResponse]
  · intro c p par u1 u2
    exact superGet_calls_le c p par u1 u2

/-- Witness for C7: empty cache, both attempts rate-limited. -/
theorem gateway_retry_once_witness :
    ([] : List (String × String × Nat)).find?
        (fun e => e.1 == cache_key "/x" none) = none ∧
    (superGet [] "/x" none (.http 429 "r1") (.http 429 "r2")).upstreamCalls = 2 :=
  ⟨rfl, (gateway_retry_once [] "/x" none "r1" (.http 429 "r2") rfl).1⟩

/-- C8: snapshot creation is atomic on failure: when the roster fetch
fails or the batch commit fails, the committed store is left exactly as
it was and the call reports `false` instead of raising. -/
theorem snapshot_rolls_back_on_failure (clan : String) (today : Int) (env : SnapEnv)
    (store : List Snap)
    (hfail : (∃ e, env.membersRes = .error e) ∨ env.commitOk = false) :
    create_clan_snapshot clan today env store = (false, store) := by
  unfold create_clan_snapshot
  split
  · rfl
  · rcases hfail with ⟨e, he⟩ | hc
    · rw [he]
    · cases hm : env.membersRes with
      | error e => rfl
      | ok members => simp [hc]

/-- Witness for C8: a failed roster fetch leaves an empty store empty. -/
theorem snapshot_rolls_back_on_failure_witness :
    create_clan_snapshot "#C" 1
      ⟨.error "boom", .ok [], fun _ => .ok [], true⟩ [] = (false, []) :=
  snapshot_rolls_back_on_failure "#C" 1 _ [] (.inl ⟨"boom", rfl⟩)

/-- In a roster whose tags are distinct, exactly one member bears any tag
present in it. -/
theorem filter_tag_unique (members : List Member) (t : String)
    (hnd : (members.map Member.tag).Nodup) (hm : t ∈ members.map Member.tag) :
    (members.filter (fun mm => mm.tag == t)).length = 1 := by
  induction members with
  | nil => cases hm
  | cons m r ih =>
    simp only [List.map_cons, List.nodup_cons] at hnd
    obtain ⟨hnotin, hndr⟩ := hnd
    by_cases hmt : m.tag = t
    · subst hmt
      rw [List.filter_cons_of_pos (by simp)]
      have hzero : r.filter (fun mm => mm.tag == m.tag) = [] := by
        rw [List.filter_eq_nil_iff]
        intro a ha
        simp only [beq_iff_eq]
        intro hcon
        exact hnotin (hcon ▸ List.mem_map_of_mem Member.tag ha)
      simp [hzero]
    · rw [List.filter_cons_of_neg (by simp only [beq_iff_eq]; exact hmt)]
      refine ih hndr ?_
      rcases (by simpa using hm : t = m.tag ∨ ∃ a ∈ r, a.tag = t) with h | ⟨a, ha, hat⟩
      · exact absurd h.symm hmt
      · exact List.mem_map.mpr ⟨a, ha, hat⟩

/-- Every row staged by `create_clan_snapshot` carries the clan tag and
today's date. -/
theorem memberSnap_filter_today (clan : String) (today : Int) (env : SnapEnv)
    (members : List Member) :
    (members.map (memberSnap clan today env)).filter
        (fun s => s.clan_tag == clan && s.snapshot_date == today)
      = members.map (memberSnap clan today env) := by
  rw [List.filter_eq_self]
  intro s hs
  obtain ⟨m, hmem, rfl⟩ := List.mem_map.mp hs
  simp [memberSnap]

/-- C2: at most one snapshot row per (clan, member, day): from a store
with no rows for (clan, today), a successful `create_clan_snapshot`
appends exactly the per-member batch; a second call the same day — under
any environment — returns false and leaves the store untouched; and each
member then has exactly one (clan, member, today) row. -/
theorem snapshot_idempotent_per_day (clan : String) (today : Int)
    (env1 env2 : SnapEnv) (store : List Snap) (members : List Member)
    (hm : env1.membersRes = .ok members) (hne : members ≠ [])
    (hnd : (members.map Member.tag).Nodup) (hcommit : env1.commitOk = true)
    (hclean : store.filter (fun s => s.clan_tag == clan && s.snapshot_date == today) = []) :
    create_clan_snapshot clan today env1 store
      = (true, store ++ members.map (memberSnap clan today env1)) ∧
    create_clan_snapshot clan today env2
        (store ++ members.map (memberSnap clan today env1))
      = (false, store ++ members.map (memberSnap clan today env1)) ∧
    ∀ m ∈ members,
      ((store ++ members.map (memberSnap clan today env1)).filter
          (fun s => s.clan_tag == clan && s.player_tag == m.tag
            && s.snapshot_date == today)).length = 1 := by
  refine ⟨?_, ?_, ?_⟩
  · simp [create_clan_snapshot, hclean, hm, hcommit]
  · simp [create_clan_snapshot, List.filter_append, hclean,
      memberSnap_filter_today, hne]
  · intro m hmem
    rw [List.filter_append]
    have hstore : store.filter
        (fun s => s.clan_tag == clan && s.player_tag == m.tag
          && s.snapshot_date == today) = [] := by
      rw [List.filter_eq_nil_iff]
      intro s hsin
      have h2 := List.filter_eq_nil_iff.mp hclean s hsin
      simp only [Bool.and_eq_true, beq_iff_eq] at h2 ⊢
      intro hcon
      exact h2 ⟨hcon.1.1, hcon.2⟩
    have hrows : (members.map (memberSnap clan today env1)).filter
        (fun s => s.clan_tag == clan && s.player_tag == m.tag
          && s.snapshot_date == today)
        = (members.filter (fun mm => mm.tag == m.tag)).map
            (memberSnap clan today env1) := by
      rw [List.filter_map]
      congr 1
      apply List.filter_congr
      intro mm _
      simp [memberSnap, Function.comp]
    rw [hstore, hrows]
    simp only [List.nil_append, List.length_map]
    exact filter_tag_unique members m.tag hnd (List.mem_map_of_mem Member.tag hmem)

/-- Witness for C2: a one-member roster snapshotted twice on day 7. -/
theorem snapshot_idempotent_per_day_witness :
    create_clan_snapshot "#C" 7
      ⟨.ok [⟨"#P", "Ann", 3, 4⟩], .ok [], fun _ => .ok [], true⟩ []
      = (true, [] ++ [⟨"#P", "Ann", 3, 4⟩].map
          (memberSnap "#C" 7 ⟨.ok [⟨"#P", "Ann", 3, 4⟩], .ok [], fun _ => .ok [], true⟩)) :=
  (snapshot_idempotent_per_day "#C" 7
    ⟨.ok [⟨"#P", "Ann", 3, 4⟩], .ok [], fun _ => .ok [], true⟩
    ⟨.ok [⟨"#P", "Ann", 3, 4⟩], .ok [], fun _ => .ok [], true⟩
    [] [⟨"#P", "Ann", 3, 4⟩] rfl (by decide) (by decide) rfl rfl).1

/-- Lookup distributes over append of association lists. -/
theorem lookup_append_or (l1 l2 : List (String × Snap)) (t : String) :
    (l1 ++ l2).lookup t = (l1.lookup t).or (l2.lookup t) := by
  induction l1 with
  | nil => simp
  | cons kv r ih =>
    obtain ⟨k, v⟩ := kv
    simp only [List.cons_append, List.lookup]
    by_cases h : t == k
    · simp [h]
    · simp only [h]
      exact ih

/-- The dict built first-wins over the old snapshots answers exactly the
first snapshot with the queried tag, accumulator generalized. -/
theorem build_old_lookup_aux (old : List Snap) (acc : List (String × Snap)) (t : String) :
    (old.foldl (fun acc s =>
        if (acc.lookup s.player_tag).isSome then acc
        else acc ++ [(s.player_tag, s)]) acc).lookup t
      = (acc.lookup t).or (old.find? (fun s => s.player_tag == t)) := by
  induction old generalizing acc with
  | nil => simp
  | cons s r ih =>
    simp only [List.foldl_cons]
    rw [ih]
    rw [List.find?]
    by_cases hsome : (acc.lookup s.player_tag).isSome
    · rw [if_pos hsome]
      by_cases hst : s.player_tag = t
      · subst hst
        obtain ⟨v, hv⟩ := Option.isSome_iff_exists.mp hsome
        simp [hv, Option.or]
      · simp [show (s.player_tag == t) = false from beq_eq_false_iff_ne.mpr hst]
    · rw [if_neg hsome]
      rw [lookup_append_or]
      by_cases hst : s.player_tag = t
      · have hnone : acc.lookup t = none := by
          rw [← hst]
          exact Option.not_isSome_iff_eq_none.mp hsome
        simp [hst, hnone, List.lookup, Option.or]
      · have h1 : (t == s.player_tag) = false := beq_eq_false_iff_ne.mpr (Ne.symm hst)
        have h2 : (s.player_tag == t) = false := beq_eq_false_iff_ne.mpr hst
        simp [List.lookup, h1, h2, Option.or_assoc]

/-- The old-snapshot dict answers the first in-query-order snapshot
bearing the tag. -/
theorem build_old_lookup_lookup (old : List Snap) (t : String) :
    (build_old_lookup old).lookup t = old.find? (fun s => s.player_tag == t) := by
  rw [build_old_lookup, build_old_lookup_aux]
  simp

/-- `find?` is the head of the filtered list. -/
theorem find?_eq_head_filter (l : List Snap) (p : Snap → Bool) :
    l.find? p = (l.filter p).head? := by
  induction l with
  | nil => rfl
  | cons s r ih =>
    rw [List.find?, List.filter]
    by_cases h : p s
    · simp [h]
    · simp only [h]
      simp only [Bool.false_eq_true, if_neg] at ih ⊢
      exact ih

/-- The head of a date-sorted list is date-minimal in it. -/
theorem head_min_of_sorted (l : List Snap)
    (hp : l.Pairwise (fun a b => a.snapshot_date ≤ b.snapshot_date))
    (b : Snap) (hb : l.head? = some b) :
    b ∈ l ∧ ∀ o ∈ l, b.snapshot_date ≤ o.snapshot_date := by
  cases l with
  | nil => cases hb
  | cons x r =>
    obtain rfl : x = b := by simpa using hb
    refine ⟨List.mem_cons_self _ _, ?_⟩
    intro o ho
    rcases List.mem_cons.mp ho with rfl | ho
    · exact le_refl _
    · exact (List.pairwise_cons.mp hp).1 o ho

/-- The in-window baseline candidates of one member, in store order:
clan rows inside `[today - period-days, today)` bearing the member's tag
(the filter of `get_historical_stats` composed with the per-tag lookup). -/
def oldCandidates (clan : String) (start today : Int) (tag : String)
    (store : List Snap) : List Snap :=
  store.filter (fun s =>
    s.player_tag == tag && (s.clan_tag == clan && decide (start ≤ s.snapshot_date)
      && decide (s.snapshot_date < today)))

/-- C3: for every member holding a today-snapshot, the report pairs it
with the head of its in-window candidates — under the store's
chronological-insertion invariant that head is the earliest-dated
candidate — and each numeric field is today − baseline when a baseline
exists, today's value verbatim when none does, while `total_war_attacks`
is always today's absolute value. -/
theorem historical_delta_earliest_baseline (clan period : String) (today : Int)
    (store : List Snap)
    (hsorted : store.Pairwise (fun a b => a.snapshot_date ≤ b.snapshot_date))
    (rows : List DeltaRow)
    (hr : get_historical_stats clan period today store = some rows) :
    rows = (store.filter (fun s => s.clan_tag == clan && s.snapshot_date == today)).map
      (fun l => deltaRow l
        (oldCandidates clan (today - days_ago_of_period period) today l.player_tag
          store).head?) ∧
    ∀ l ∈ store.filter (fun s => s.clan_tag == clan && s.snapshot_date == today),
      (∀ b, (oldCandidates clan (today - days_ago_of_period period) today l.player_tag
          store).head? = some b →
        b ∈ oldCandidates clan (today - days_ago_of_period period) today l.player_tag store ∧
        (∀ o ∈ oldCandidates clan (today - days_ago_of_period period) today l.player_tag store,
          b.snapshot_date ≤ o.snapshot_date) ∧
        deltaRow l (some b) = ⟨l.player_name, l.player_tag,
          l.donations_given - b.donations_given,
          l.donations_received - b.donations_received,
          l.war_attacks - b.war_attacks,
          l.total_war_attacks,
          l.medals - b.medals,
          l.battles - b.battles,
          l.wins - b.wins,
          l.losses - b.losses⟩) ∧
      ((oldCandidates clan (today - days_ago_of_period period) today l.player_tag store)
          = [] →
        deltaRow l (oldCandidates clan (today - days_ago_of_period period) today
            l.player_tag store).head?
          = ⟨l.player_name, l.player_tag, l.donations_given, l.donations_received,
              l.war_attacks, l.total_war_attacks, l.medals, l.battles, l.wins,
              l.losses⟩) ∧
      (deltaRow l (oldCandidates clan (today - days_ago_of_period period) today
          l.player_tag store).head?).total_war_attacks = l.total_war_attacks := by
  have hlookup : ∀ t : String,
      (build_old_lookup (store.filter
        (fun s => s.clan_tag == clan
          && decide (today - days_ago_of_period period ≤ s.snapshot_date)
          && decide (s.snapshot_date < today)))).lookup t
      = (oldCandidates clan (today - days_ago_of_period period) today t store).head? := by
    intro t
    rw [build_old_lookup_lookup, find?_eq_head_filter, oldCandidates, List.filter_filter]
  constructor
  · rw [get_historical_stats] at hr
    split at hr
    · cases hr
    · obtain rfl : _ = rows := (Option.some.injEq _ _).mp hr
      apply List.map_congr_left
      intro l _
      rw [hlookup l.player_tag]
  · intro l _
    refine ⟨?_, ?_, ?_⟩
    · intro b hb
      have hcandsorted : (oldCandidates clan (today - days_ago_of_period period) today
          l.player_tag store).Pairwise (fun a b => a.snapshot_date ≤ b.snapshot_date) :=
        List.Pairwise.sublist (List.filter_sublist store) hsorted
      obtain ⟨hmem, hmin⟩ := head_min_of_sorted _ hcandsorted b hb
      exact ⟨hmem, hmin, rfl⟩
    · intro hempty
      rw [hempty]
      rfl
    · cases (oldCandidates clan (today - days_ago_of_period period) today
        l.player_tag store).head? <;> rfl

/-- Witness for C3: a two-day history for one member; the week report
subtracts the day-93 baseline from day-100. -/
theorem historical_delta_earliest_baseline_witness :
    get_historical_stats "#C" "week" 100
        [⟨"#C", "#P", "Ann", 20, 5, 1, 8, 10, 3, 2, 1, 93⟩,
         ⟨"#C", "#P", "Ann", 50, 9, 3, 8, 30, 9, 5, 2, 100⟩]
      = some [⟨"Ann", "#P", 30, 4, 2, 8, 20, 6, 3, 1⟩] ∧
    [⟨"Ann", "#P", 30, 4, 2, 8, 20, 6, 3, 1⟩]
      = (([⟨"#C", "#P", "Ann", 20, 5, 1, 8, 10, 3, 2, 1, 93⟩,
           ⟨"#C", "#P", "Ann", 50, 9, 3, 8, 30, 9, 5, 2, 100⟩] : List Snap).filter
          (fun s => s.clan_tag == "#C" && s.snapshot_date == 100)).map
        (fun l => deltaRow l
          (oldCandidates "#C" (100 - days_ago_of_period "week") 100 l.player_tag
            [⟨"#C", "#P", "Ann", 20, 5, 1, 8, 10, 3, 2, 1, 93⟩,
             ⟨"#C", "#P", "Ann", 50, 9, 3, 8, 30, 9, 5, 2, 100⟩]).head?) :=
  ⟨by decide,
    (historical_delta_earliest_baseline "#C" "week" 100
      [⟨"#C", "#P", "Ann", 20, 5, 1, 8, 10, 3, 2, 1, 93⟩,
       ⟨"#C", "#P", "Ann", 50, 9, 3, 8, 30, 9, 5, 2, 100⟩]
      (by decide)
      [⟨"Ann", "#P", 30, 4, 2, 8, 20, 6, 3, 1⟩] (by decide)).1⟩

/-- Whatever `extractOne`'s scan returns either was the initial best or
is a scanned name with its score. -/
theorem extractOne_go_mem (scorer : String → String → ℚ) (q : String)
    (names : List String) (init : Option (String × ℚ)) (n : String) (sc : ℚ)
    (h : names.foldl
        (fun best nm =>
          match best with
          | none => some (nm, scorer q nm)
          | some (bn, bs) =>
            if bs < scorer q nm then some (nm, scorer q nm) else some (bn, bs))
        init = some (n, sc)) :
    init = some (n, sc) ∨ (n ∈ names ∧ sc = scorer q n) := by
  induction names generalizing init with
  | nil => exact .inl h
  | cons x r ih =>
    rw [List.foldl_cons] at h
    rcases ih _ h with hstep | ⟨hmem, hsc⟩
    · cases init with
      | none =>
        simp only [Option.some.injEq, Prod.mk.injEq] at hstep
        exact .inr ⟨by simp [hstep.1], by rw [← hstep.1]; exact hstep.2.symm⟩
      | some bv =>
        obtain ⟨bn, bs⟩ := bv
        simp only at hstep
        split at hstep
        · simp only [Option.some.injEq, Prod.mk.injEq] at hstep
          exact .inr ⟨by simp [hstep.1], by rw [← hstep.1]; exact hstep.2.symm⟩
        · exact .inl hstep
    · exact .inr ⟨List.mem_cons_of_mem x hmem, hsc⟩

/-- C6: the by-clan-tag resolver accepts the best fuzzy match exactly at
the 70 threshold: a best score below 70 fails with NotFound (404), a best
score of 70 or above returns the first member bearing the matched name —
its tag, canonical name, and the truncated integer score as confidence. -/
theorem resolver_threshold (scorer : String → String → ℚ) (player_name : String)
    (members : List Member) (mn : String) (sc : ℚ)
    (hm : extractOne scorer player_name (members.map Member.name) = some (mn, sc)) :
    (sc < 70 → resolve_player_by_clan_tag scorer player_name members
      = .error (.http 404 "No close match found")) ∧
    (70 ≤ sc → ∃ chosen, members.find? (fun m => m.name == mn) = some chosen ∧
      resolve_player_by_clan_tag scorer player_name members
        = .ok ⟨chosen.tag, chosen.name, pyIntOfRat sc⟩) := by
  have hne : members ≠ [] := by
    intro hcon
    subst hcon
    simp [extractOne] at hm
  have hres : resolve_player_by_clan_tag scorer player_name members
      = if sc < 70 then Except.error (PyError.http 404 "No close match found")
        else match members.find? (fun m => m.name == mn) with
          | none => Except.error (PyError.http 500 "StopIteration")
          | some chosen => Except.ok ⟨chosen.tag, chosen.name, pyIntOfRat sc⟩ := by
    unfold resolve_player_by_clan_tag
    rw [if_neg hne, hm]
  constructor
  · intro hlt
    rw [hres, if_pos hlt]
  · intro hge
    rw [hres, if_neg (not_lt.mpr hge)]
    have hmem : mn ∈ members.map Member.name := by
      rcases extractOne_go_mem scorer player_name (members.map Member.name)
        none mn sc (by rw [extractOne] at hm; exact hm) with hcon | ⟨h1, _⟩
      · cases hcon
      · exact h1
    obtain ⟨m0, hm0, hname⟩ := List.mem_map.mp hmem
    have hsome : (members.find? (fun m => m.name == mn)).isSome := by
      rw [List.find?_isSome]
      exact ⟨m0, hm0, by simp [hname]⟩
    obtain ⟨chosen, hch⟩ := Option.isSome_iff_exists.mp hsome
    rw [hch]
    exact ⟨chosen, rfl, rfl⟩

/-- Witness for C6: the end-to-end roster example; the scorer rates
"Anna" at exactly 70, which must be accepted. -/
theorem resolver_threshold_witness :
    extractOne (fun _ n => if n == "Anna" then (70 : ℚ) else 0) "ana"
        (([⟨"#A1", "Ann", 0, 0⟩, ⟨"#A2", "Anna", 0, 0⟩] : List Member).map Member.name)
      = some ("Anna", 70) ∧
    ∃ chosen, ([⟨"#A1", "Ann", 0, 0⟩, ⟨"#A2", "Anna", 0, 0⟩] : List Member).find?
        (fun m => m.name == "Anna") = some chosen ∧
      resolve_player_by_clan_tag (fun _ n => if n == "Anna" then (70 : ℚ) else 0) "ana"
          [⟨"#A1", "Ann", 0, 0⟩, ⟨"#A2", "Anna", 0, 0⟩]
        = .ok ⟨chosen.tag, chosen.name, pyIntOfRat 70⟩ := by
  have hm : extractOne (fun _ n => if n == "Anna" then (70 : ℚ) else 0) "ana"
      (([⟨"#A1", "Ann", 0, 0⟩, ⟨"#A2", "Anna", 0, 0⟩] : List Member).map Member.name)
      = some ("Anna", 70) := by
    decide
  exact ⟨hm, (resolver_threshold (fun _ n => if n == "Anna" then (70 : ℚ) else 0) "ana"
    [⟨"#A1", "Ann", 0, 0⟩, ⟨"#A2", "Anna", 0, 0⟩] "Anna" 70 hm).2 (le_refl 70)⟩

/-- Unicode scalar bounds of a `Char`, at the `Nat` level. -/
theorem char_valid_nat (c : Char) :
    c.toNat < 55296 ∨ (57343 < c.toNat ∧ c.toNat < 1114112) := by
  rcases c.valid with h | ⟨h1, h2⟩
  · exact .inl h
  · exact .inr ⟨h1, h2⟩

/-- Reading back the code point of a valid scalar value. -/
theorem char_toNat_ofNat (n : Nat) (hv : n.isValidChar) : (Char.ofNat n).toNat = n := by
  simp only [Char.ofNat, hv, dif_pos, Char.ofNatAux, Char.toNat]
  rfl

/-- The decoder consumes exactly one encoded character: for every scalar
`c` and trailing bytes, `utf8Dec1` on the encoding of `c` yields `c` and
the count of its continuation bytes. -/
theorem utf8Dec1_enc (c : Char) (rest : List Nat) :
    ∃ b ebs, utf8EncodeCh c = b :: ebs ∧ utf8Dec1 b (ebs ++ rest) = (c, ebs.length) := by
  have hval := char_valid_nat c
  have hsur : c.toNat < 55296 ∨ 57343 < c.toNat := by
    rcases hval with h | ⟨h, _⟩
    exacts [.inl h, .inr h]
  have hup : c.toNat < 1114112 := by
    rcases hval with h | ⟨_, h⟩ <;> omega
  by_cases h1 : c.toNat < 128
  · refine ⟨c.toNat, [], ?_, ?_⟩
    · simp only [utf8EncodeCh]
      rw [if_pos h1]
    · simp only [List.nil_append, utf8Dec1]
      rw [if_pos h1, Char.ofNat_toNat]
      rfl
  · by_cases h2 : c.toNat < 2048
    · refine ⟨192 + c.toNat / 64, [128 + c.toNat % 64], ?_, ?_⟩
      · simp only [utf8EncodeCh]
        rw [if_neg h1, if_pos h2]
      · simp only [List.cons_append, List.nil_append, utf8Dec1]
        rw [if_neg (by omega), if_pos ⟨by omega, by omega⟩, if_pos ⟨by omega, by omega⟩]
        have harith : (192 + c.toNat / 64 - 192) * 64 + (128 + c.toNat % 64 - 128)
            = c.toNat := by omega
        rw [harith, Char.ofNat_toNat]
        rfl
    · by_cases h3 : c.toNat < 65536
      · refine ⟨224 + c.toNat / 4096, [128 + c.toNat / 64 % 64, 128 + c.toNat % 64], ?_, ?_⟩
        · simp only [utf8EncodeCh]
          rw [if_neg h1, if_neg h2, if_pos h3]
        · simp only [List.cons_append, List.nil_append, utf8Dec1]
          rw [if_neg (by omega), if_neg (by omega), if_pos ⟨by omega, by omega⟩]
          rw [if_pos ⟨by split_ifs with he <;> omega,
            by split_ifs with he <;> rcases hsur with h | h <;> omega⟩]
          rw [if_pos ⟨by omega, by omega⟩]
          have harith : (224 + c.toNat / 4096 - 224) * 4096
              + (128 + c.toNat / 64 % 64 - 128) * 64 + (128 + c.toNat % 64 - 128)
              = c.toNat := by omega
          rw [harith, Char.ofNat_toNat]
          rfl
      · refine ⟨240 + c.toNat / 262144,
          [128 + c.toNat / 4096 % 64, 128 + c.toNat / 64 % 64, 128 + c.toNat % 64], ?_, ?_⟩
        · simp only [utf8EncodeCh]
          rw [if_neg h1, if_neg h2, if_neg h3]
        · simp only [List.cons_append, List.nil_append, utf8Dec1]
          rw [if_neg (by omega), if_neg (by omega), if_neg (by omega),
            if_pos ⟨by omega, by omega⟩]
          rw [if_pos ⟨by split_ifs with he <;> omega,
            by split_ifs with he <;> omega⟩]
          rw [if_pos ⟨by omega, by omega⟩, if_pos ⟨by omega, by omega⟩]
          have harith : (240 + c.toNat / 262144 - 240) * 262144
              + (128 + c.toNat / 4096 % 64 - 128) * 4096
              + (128 + c.toNat / 64 % 64 - 128) * 64 + (128 + c.toNat % 64 - 128)
              = c.toNat := by omega
          rw [harith, Char.ofNat_toNat]
          rfl

/-- UTF-8 decode-after-encode is the identity, fuel-generalized. -/
theorem utf8_roundtrip_aux (cs : List Char) : ∀ fuel,
    (cs.flatMap utf8EncodeCh).length ≤ fuel →
    utf8DecAux fuel (cs.flatMap utf8EncodeCh) = cs := by
  induction cs with
  | nil =>
    intro fuel _
    cases fuel <;> rfl
  | cons c cs' ih =>
    intro fuel hlen
    obtain ⟨b, ebs, henc, hdec⟩ := utf8Dec1_enc c (cs'.flatMap utf8EncodeCh)
    have hflat : (c :: cs').flatMap utf8EncodeCh
        = b :: (ebs ++ cs'.flatMap utf8EncodeCh) := by
      rw [List.flatMap_cons, henc, List.cons_append]
    rw [hflat] at hlen ⊢
    cases fuel with
    | zero => simp at hlen
    | succ f =>
      rw [utf8DecAux, hdec]
      simp only [List.drop_left]
      rw [ih f (by simp [List.length_append] at hlen ⊢; omega)]

/-- UTF-8 decode-after-encode is the identity. -/
theorem utf8_roundtrip (cs : List Char) :
    utf8DecodeReplace (cs.flatMap utf8EncodeCh) = cs :=
  utf8_roundtrip_aux cs _ le_rfl

/-- Every byte emitted by the UTF-8 encoder fits in a byte. -/
theorem utf8EncodeCh_lt256 (c : Char) : ∀ b ∈ utf8EncodeCh c, b < 256 := by
  intro b hb
  have hup : c.toNat < 1114112 := by
    rcases char_valid_nat c with h | ⟨_, h⟩ <;> omega
  simp only [utf8EncodeCh] at hb
  split_ifs at hb <;>
    simp only [List.mem_cons, List.not_mem_nil, or_false] at hb
  · omega
  · rcases hb with rfl | rfl <;> omega
  · rcases hb with rfl | rfl | rfl <;> omega
  · rcases hb with rfl | rfl | rfl | rfl <;> omega

/-- Every byte of a string's UTF-8 encoding fits in a byte. -/
theorem strBytes_lt256 (s : String) : ∀ b ∈ strBytes s, b < 256 := by
  intro b hb
  obtain ⟨c, _, hbc⟩ := List.mem_flatMap.mp hb
  exact utf8EncodeCh_lt256 c b hbc

/-- Parsing back an uppercase hex digit. -/
theorem hexVal_hexDigitU (n : Nat) (h : n < 16) : hexVal (hexDigitU n) = some n := by
  by_cases h10 : n < 10
  · have ht : (Char.ofNat (48 + n)).toNat = 48 + n := char_toNat_ofNat _ (.inl (by omega))
    simp only [hexDigitU, if_pos h10, hexVal, ht]
    rw [if_pos ⟨by omega, by omega⟩]
    congr 1
    omega
  · have ht : (Char.ofNat (55 + n)).toNat = 55 + n := char_toNat_ofNat _ (.inl (by omega))
    simp only [hexDigitU, if_neg h10, hexVal, ht]
    rw [if_neg (by omega), if_pos ⟨by omega, by omega⟩]
    congr 1
    omega

/-- A safe byte is plain printable ASCII. -/
theorem quoteSafe_range (b : Nat) (h : quoteSafe b = true) : 44 < b ∧ b < 127 := by
  have := of_decide_eq_true h
  rcases this with h' | h' | h' | h' | h' | h' | h' <;> omega

/-- One `unquote` step over a plain ASCII character. -/
theorem unquoteAux_plain_step (f : Nat) (buf : List Nat) (c : Char) (crest : List Char)
    (hlt : c.toNat < 128) (hne : c ≠ '%') :
    unquoteAux (f + 1) buf (c :: crest) = unquoteAux f (buf ++ [c.toNat]) crest := by
  rw [unquoteAux, if_pos hlt, if_neg hne]

/-- One `unquote` step over a well-formed percent escape. -/
theorem unquoteAux_escape_step (f : Nat) (buf : List Nat) (h1 h2 : Char) (v1 v2 : Nat)
    (crest : List Char) (hv1 : hexVal h1 = some v1) (hv2 : hexVal h2 = some v2) :
    unquoteAux (f + 1) buf ('%' :: h1 :: h2 :: crest)
      = unquoteAux f (buf ++ [16 * v1 + v2]) crest := by
  rw [unquoteAux, if_pos (by decide), if_pos rfl]
  have hesc : hexEscape (h1 :: h2 :: crest) = some (16 * v1 + v2, crest) := by
    rw [hexEscape]
    simp only [hv1, hv2]
  rw [hesc]

/-- The `unquote` walk over the `quote` encoding of a byte list turns it
back into exactly those bytes, then decodes them. -/
theorem unquote_quoted (bytes : List Nat) : ∀ (fuel : Nat) (buf : List Nat),
    (bytes.flatMap quoteByte).length ≤ fuel →
    (∀ b ∈ bytes, b < 256) →
    unquoteAux fuel buf (bytes.flatMap quoteByte) = utf8DecodeReplace (buf ++ bytes) := by
  induction bytes with
  | nil =>
    intro fuel buf _ _
    cases fuel <;> simp [unquoteAux]
  | cons b rest ih =>
    intro fuel buf hlen hbound
    have hb : b < 256 := hbound b (List.mem_cons_self _ _)
    have hrestb : ∀ x ∈ rest, x < 256 := fun x hx => hbound x (List.mem_cons_of_mem _ hx)
    by_cases hsafe : quoteSafe b
    · have hq : quoteByte b = [Char.ofNat b] := by rw [quoteByte, if_pos hsafe]
      have hflat : (b :: rest).flatMap quoteByte
          = Char.ofNat b :: rest.flatMap quoteByte := by
        rw [List.flatMap_cons, hq, List.singleton_append]
      obtain ⟨hlo, hhi⟩ := quoteSafe_range b hsafe
      have ht : (Char.ofNat b).toNat = b := char_toNat_ofNat _ (.inl (by omega))
      rw [hflat] at hlen ⊢
      cases fuel with
      | zero => simp at hlen
      | succ f =>
        rw [unquoteAux_plain_step f buf _ _ (by omega) ?hneq, ht]
        case hneq =>
          intro hcon
          have : (Char.ofNat b).toNat = 37 := by rw [hcon]; rfl
          omega
        rw [ih f (buf ++ [b]) (by simp at hlen ⊢; omega) hrestb]
        rw [List.append_assoc, List.singleton_append]
    · have hq : quoteByte b = ['%', hexDigitU (b / 16 % 16), hexDigitU (b % 16)] := by
        rw [quoteByte, if_neg hsafe]
      have hflat : (b :: rest).flatMap quoteByte
          = '%' :: hexDigitU (b / 16 % 16) :: hexDigitU (b % 16)
            :: rest.flatMap quoteByte := by
        rw [List.flatMap_cons, hq]
        rfl
      rw [hflat] at hlen ⊢
      cases fuel with
      | zero => simp at hlen
      | succ f =>
        rw [unquoteAux_escape_step f buf _ _ _ _ _
          (hexVal_hexDigitU _ (by omega)) (hexVal_hexDigitU _ (by omega))]
        have hbyte : 16 * (b / 16 % 16) + b % 16 = b := by omega
        rw [hbyte, ih f (buf ++ [b]) (by simp at hlen ⊢; omega) hrestb]
        rw [List.append_assoc, List.singleton_append]

/-- `unquote(quote(s))` is `s` for every string. -/
theorem pyUnquote_pyQuote (s : String) : pyUnquote (pyQuote s) = s := by
  rw [pyQuote, pyUnquote]
  rw [unquote_quoted (strBytes s) _ [] le_rfl (strBytes_lt256 s)]
  rw [List.nil_append, strBytes, utf8_roundtrip]

/-- ASCII text UTF-8-encodes byte-per-character. -/
theorem flatMap_utf8_ascii (cs : List Char) (h : ∀ c ∈ cs, c.toNat < 128) :
    cs.flatMap utf8EncodeCh = cs.map Char.toNat := by
  induction cs with
  | nil => rfl
  | cons c r ih =>
    rw [List.flatMap_cons, List.map_cons]
    have hc : utf8EncodeCh c = [c.toNat] := by
      simp only [utf8EncodeCh]
      rw [if_pos (h c (List.mem_cons_self _ _))]
    rw [hc, ih (fun x hx => h x (List.mem_cons_of_mem _ hx)), List.singleton_append]

/-- Decoding the raw codes of ASCII text gives the text back. -/
theorem utf8DecodeReplace_ascii (cs : List Char) (h : ∀ c ∈ cs, c.toNat < 128) :
    utf8DecodeReplace (cs.map Char.toNat) = cs := by
  rw [← flatMap_utf8_ascii cs h, utf8_roundtrip]

/-- The `unquote` walk over plain ASCII text (no `%`) just collects its
codes into the buffer. -/
theorem unquote_plain (cs : List Char) : ∀ (fuel : Nat) (buf : List Nat),
    cs.length ≤ fuel →
    (∀ c ∈ cs, c.toNat < 128 ∧ c ≠ '%') →
    unquoteAux fuel buf cs = utf8DecodeReplace (buf ++ cs.map Char.toNat) := by
  induction cs with
  | nil =>
    intro fuel buf _ _
    cases fuel <;> simp [unquoteAux]
  | cons c r ih =>
    intro fuel buf hlen hplain
    obtain ⟨hlt, hne⟩ := hplain c (List.mem_cons_self _ _)
    cases fuel with
    | zero => simp at hlen
    | succ f =>
      rw [unquoteAux_plain_step f buf c r hlt hne]
      rw [ih f (buf ++ [c.toNat]) (by simp at hlen ⊢; omega)
        (fun x hx => hplain x (List.mem_cons_of_mem _ hx))]
      rw [List.append_assoc, List.singleton_append, List.map_cons]

/-- `ensureHash` output always begins with `#`. -/
theorem ensureHash_data (t : String) : ∃ r, (ensureHash t).data = '#' :: r := by
  unfold ensureHash
  split
  · next heq => exact ⟨_, heq⟩
  · exact ⟨t.data, by rw [String.data_append]; rfl⟩

/-- `ensureHash` leaves a `#`-headed string alone. -/
theorem ensureHash_of_hash (v : String) (h : ∃ r, v.data = '#' :: r) :
    ensureHash v = v := by
  obtain ⟨r, hr⟩ := h
  unfold ensureHash
  split
  · rfl
  · next hne => exact absurd hr (hne r)

/-- `ensureHash` prepends `#` when the string does not start with one. -/
theorem ensureHash_of_not_hash (v : String) (h : ∀ r, v.data ≠ '#' :: r) :
    ensureHash v = "#" ++ v := by
  unfold ensureHash
  split
  · next heq => exact absurd heq (h _)
  · rfl

/-- `unquote` of plain ASCII text without `%` is the identity. -/
theorem pyUnquote_plain_id (t : String)
    (h : ∀ c ∈ t.data, c.toNat < 128 ∧ c ≠ '%') : pyUnquote t = t := by
  rw [pyUnquote, unquote_plain t.data _ [] le_rfl h, List.nil_append,
    utf8DecodeReplace_ascii t.data (fun c hc => (h c hc).1)]

/-- C9: `enc_tag` is idempotent on every input, and on a plain tag body
(ASCII with no `%` or `#`, which covers the alphanumeric tags of the
upstream system) the raw form, the `#`-prefixed form and the
`%23`-prefixed form all encode to the same output. -/
theorem enc_tag_idempotent_and_forms :
    (∀ t, enc_tag (enc_tag t) = enc_tag t) ∧
    (∀ t : String, (∀ c ∈ t.data, c.toNat < 128 ∧ c ≠ '%' ∧ c ≠ '#') →
      enc_tag ("#" ++ t) = enc_tag t ∧ enc_tag ("%23" ++ t) = enc_tag t) := by
  constructor
  · intro t
    show pyQuote (ensureHash (pyUnquote (pyQuote (ensureHash (pyUnquote t)))))
      = pyQuote (ensureHash (pyUnquote t))
    rw [pyUnquote_pyQuote, ensureHash_of_hash _ (ensureHash_data _)]
  · intro t hplain
    have hhash_data : ("#" ++ t).data = '#' :: t.data := by
      rw [String.data_append]
      rfl
    have hq1 : pyUnquote t = t :=
      pyUnquote_plain_id t (fun c hc => ⟨(hplain c hc).1, (hplain c hc).2.1⟩)
    have henc_t : enc_tag t = pyQuote ("#" ++ t) := by
      show pyQuote (ensureHash (pyUnquote t)) = _
      rw [hq1, ensureHash_of_not_hash]
      intro r hr
      have : '#' ∈ t.data := by
        rw [hr]
        exact List.mem_cons_self _ _
      exact (hplain '#' this).2.2 rfl
    have hq2 : pyUnquote ("#" ++ t) = "#" ++ t := by
      apply pyUnquote_plain_id
      rw [hhash_data]
      intro c hc
      rcases List.mem_cons.mp hc with rfl | hc
      · exact ⟨by decide, by decide⟩
      · exact ⟨(hplain c hc).1, (hplain c hc).2.1⟩
    have henc_hash : enc_tag ("#" ++ t) = pyQuote ("#" ++ t) := by
      show pyQuote (ensureHash (pyUnquote ("#" ++ t))) = _
      rw [hq2, ensureHash_of_hash _ ⟨t.data, hhash_data⟩]
    have hq3 : pyUnquote ("%23" ++ t) = "#" ++ t := by
      have hdata : ("%23" ++ t).data = '%' :: '2' :: '3' :: t.data := by
        rw [String.data_append]
        rfl
      rw [pyUnquote, hdata]
      have hlen : ('%' :: '2' :: '3' :: t.data).length = (t.data.length + 2) + 1 := by
        simp
      rw [hlen]
      rw [unquoteAux_escape_step _ [] '2' '3' 2 3 t.data (by decide) (by decide)]
      rw [show (16 * 2 + 3 : Nat) = 35 from rfl]
      rw [unquote_plain t.data _ ([] ++ [35]) (by omega)
        (fun c hc => ⟨(hplain c hc).1, (hplain c hc).2.1⟩)]
      rw [List.nil_append, List.singleton_append]
      rw [show ((35 : Nat) :: t.data.map Char.toNat)
          = ('#' :: t.data).map Char.toNat from by
        rw [List.map_cons, show '#'.toNat = 35 from rfl]]
      rw [utf8DecodeReplace_ascii ('#' :: t.data) ?hascii]
      case hascii =>
        intro c hc
        rcases List.mem_cons.mp hc with rfl | hc
        · decide
        · exact (hplain c hc).1
      rw [← hhash_data]
    have henc_esc : enc_tag ("%23" ++ t) = pyQuote ("#" ++ t) := by
      show pyQuote (ensureHash (pyUnquote ("%23" ++ t))) = _
      rw [hq3, ensureHash_of_hash _ ⟨t.data, hhash_data⟩]
    exact ⟨by rw [henc_hash, henc_t], by rw [henc_esc, henc_t]⟩

/-- Witness for C9 at the tag body "ABC123": the three spellings all
encode to "%23ABC123", and re-encoding is stable. -/
theorem enc_tag_idempotent_and_forms_witness :
    enc_tag (enc_tag "%23ABC123") = enc_tag "%23ABC123" ∧
    (∀ c ∈ ("ABC123" : String).data, c.toNat < 128 ∧ c ≠ '%' ∧ c ≠ '#') ∧
    enc_tag ("#" ++ "ABC123") = enc_tag "ABC123" ∧
    enc_tag ("%23" ++ "ABC123") = enc_tag "ABC123" ∧
    enc_tag "ABC123" = "%23ABC123" :=
  ⟨enc_tag_idempotent_and_forms.1 "%23ABC123", by decide,
    (enc_tag_idempotent_and_forms.2 "ABC123" (by decide)).1,
    (enc_tag_idempotent_and_forms.2 "ABC123" (by decide)).2, by decide⟩

end DeckTracker
